import Mathlib

/-!
# Habit Tracker — shallow embedding and verification

A shallow embedding, in Lean, of the core of `src/app-template.js`: the
`Habit` entity (completion tracking and week-relative progress) and the
`HabitTracker` aggregate (add / complete / delete and the stats cache),
together with the per-habit restore step of `loadFromFile`.

Modelling conventions, fixed once for the whole file:

* Instants are milliseconds since the Unix epoch, as `Int`, in a locale
  whose local time equals UTC and has no daylight-saving transitions
  (so `setHours(0,0,0,0)` is truncation to a multiple of `msPerDay`,
  and `toISOString` agrees with local calendar computations).  Lean's
  `Int` division `/` rounds toward minus infinity for a positive
  divisor, exactly as JavaScript's internal `Day(t) = floor(t / msPerDay)`.
* A `'YYYY-MM-DD'` calendar-day string is represented by its epoch-day
  number (the string encoding of a day is injective, so nothing is lost).
* JavaScript numbers are modelled as exact rationals plus `NaN`
  (`JSNum` below); floating-point rounding and the infinities are not
  modelled.  Every comparison in the source is translated with its
  JavaScript semantics: any comparison with `NaN` is false.
* I/O is reduced to its observable effect: `saveToFile` becomes a
  counter of persist calls on the tracker state, and `loadFromFile`'s
  per-habit restoration becomes a pure function of the parsed record.
-/

/-- A JavaScript number: either `NaN` or an exact rational. -/
inductive JSNum where
  | nan : JSNum
  | num : ℚ → JSNum
deriving DecidableEq

/-- JS `x ?? d` applied to a number: a number value (including `NaN`)
is never `null`/`undefined`, so the fallback `d` is never taken. -/
def jsNullish (x : JSNum) (d : JSNum) : JSNum := x

/-- JS `a >= b` where `a` is a real number and `b` may be `NaN`
(any comparison against `NaN` is false). -/
def jsGeNum (a : ℚ) : JSNum → Bool
  | JSNum.nan => false
  | JSNum.num b => decide (b ≤ a)

/-- Milliseconds per day. -/
def msPerDay : Int := 86400000

/-- JS `Day(t)`: the epoch-day number of an instant (floor division). -/
def epochDay (t : Int) : Int := t / msPerDay

/-- JS `Date.prototype.getDay`: day of week of an instant, `0` = Sunday …
`6` = Saturday.  Epoch day `0` (1970-01-01) was a Thursday (= 4). -/
def jsGetDay (t : Int) : Int := (epochDay t + 4) % 7

/-- `formatDate` (line 29): `d.toISOString().slice(0, 10)`, i.e. the
calendar-day string of the instant, represented by its epoch-day number. -/
def formatDate (t : Int) : Int := epochDay t

/-- `startOfWeek` (line 34): step back `(getDay() + 6) % 7` days
(so `0` steps for a Monday), then truncate to midnight. -/
def startOfWeek (t : Int) : Int :=
  (epochDay t - (jsGetDay t + 6) % 7) * msPerDay

/-- `endOfWeek` (line 43): six days after the week start, at
23:59:59.999 (= 86399999 ms into the day). -/
def endOfWeek (t : Int) : Int :=
  startOfWeek t + 6 * msPerDay + 86399999

/-- The instant denoted by `new Date(d + 'T00:00:00')` for a stored
calendar-day value `d`: local midnight of that day. -/
def dayMidnight (c : Int) : Int := c * msPerDay

/-- The `Habit` entity (lines 81–126).  `completions` is the list of
stored `'YYYY-MM-DD'` strings, each represented by its epoch-day
number; `createdAt` is the creation instant. -/
structure Habit where
  id : String
  name : String
  targetFrequency : JSNum
  completions : List Int
  createdAt : Int
deriving DecidableEq

/-- The `Habit` constructor (lines 82–88).  `targetFrequency` receives
`Number(targetFrequency) ?? 0`: the parameter here is already the result
of the `Number(·)` coercion (a non-numeric argument coerces to `NaN`),
and the `?? 0` fallback never fires because a number is never nullish. -/
def Habit.make (name : String) (targetFrequency : JSNum)
    (freshId : String) (now : Int) : Habit :=
  { id := freshId
    name := name
    targetFrequency := jsNullish targetFrequency (JSNum.num 0)
    completions := []
    createdAt := now }

/-- `markComplete` (lines 90–98): append the formatted day unless it is
already present; return the updated habit and the JS boolean result. -/
def Habit.markComplete (h : Habit) (date : Int) : Habit × Bool :=
  let dateStr := formatDate date
  if dateStr ∈ h.completions then (h, false)
  else ({ h with completions := h.completions ++ [dateStr] }, true)

/-- `getThisWeekCompletions` (lines 101–108): keep the stored days whose
local midnight lies in `[startOfWeek r, endOfWeek r]`, in stored order. -/
def Habit.getThisWeekCompletions (h : Habit) (r : Int) : List Int :=
  h.completions.filter fun c =>
    decide (startOfWeek r ≤ dayMidnight c) && decide (dayMidnight c ≤ endOfWeek r)

/-- `isCompletedThisWeek` (lines 110–112): JS
`thisWeekCount >= targetFrequency` (false when the target is `NaN`). -/
def Habit.isCompletedThisWeek (h : Habit) (r : Int) : Bool :=
  jsGeNum ((h.getThisWeekCompletions r).length : ℚ) h.targetFrequency

/-- `getProgressPercentage` (lines 114–119).  The JS control flow is:
`if (targetFrequency <= 0) return 0` — false for `NaN`, so a `NaN`
target falls through to `(done / NaN) * 100 = NaN` and
`Math.min(NaN, 100) = NaN`; otherwise `min((done / target) * 100, 100)`. -/
def Habit.getProgressPercentage (h : Habit) (r : Int) : JSNum :=
  let done : ℚ := ((h.getThisWeekCompletions r).length : ℚ)
  match h.targetFrequency with
  | JSNum.nan => JSNum.nan
  | JSNum.num q =>
    if q ≤ 0 then JSNum.num 0
    else JSNum.num (min (done / q * 100) 100)

/-- The profile's `stats` record (lines 62–65). -/
structure Stats where
  habitsCreated : Nat
  totalCompletions : Nat
deriving DecidableEq

/-- `UserProfile.updateStats` (lines 66–71): count the habits and fold
the completion counts, exactly as the `forEach` accumulation does. -/
def updateStats (habits : List Habit) : Stats :=
  { habitsCreated := habits.length
    totalCompletions := habits.foldl (fun acc h => acc + h.completions.length) 0 }

/-- The `HabitTracker` aggregate state (lines 129–135): the ordered habit
list, the profile's stats cache, and (in place of file I/O) the number
of `saveToFile` calls performed so far. -/
structure HabitTracker where
  habits : List Habit
  stats : Stats
  saves : Nat
deriving DecidableEq

/-- JS array read `habits[idx]` for a (possibly fractional) numeric
index: defined only when the index is an integer within bounds, else
`undefined` (`none`).  A fractional index is a plain property key, so
it is NOT truncated. -/
def jsArrayGet (l : List Habit) (q : ℚ) : Option Habit :=
  if q.den = 1 ∧ 0 ≤ q.num then l[q.num.toNat]? else none

/-- Outcome of `completeHabit` (lines 145–155): the error object for an
invalid index, the `{ habit, added }` record, or the `TypeError` thrown
by `undefined.markComplete()` when `habits[idx]` is `undefined`. -/
inductive CompleteResult where
  | invalidIndex : CompleteResult
  | ok : Habit → Bool → CompleteResult
  | typeError : CompleteResult
deriving DecidableEq

/-- `addHabit` (lines 137–143): construct, append, recompute stats,
persist, and return the new habit.  No validation is performed here. -/
def HabitTracker.addHabit (t : HabitTracker) (name : String) (frequency : JSNum)
    (freshId : String) (now : Int) : HabitTracker × Habit :=
  let h := Habit.make name frequency freshId now
  let habits := t.habits ++ [h]
  ({ habits := habits, stats := updateStats habits, saves := t.saves + 1 }, h)

/-- `completeHabit` (lines 145–155).  The guard rejects `NaN`, negative
and past-the-end indices but not fractional in-range ones; on those,
`habits[idx]` is `undefined` and the method call throws (`typeError`).
Stats are recomputed and the state persisted only when `markComplete`
actually added a day. -/
def HabitTracker.completeHabit (t : HabitTracker) (habitIndex : JSNum)
    (today : Int) : HabitTracker × CompleteResult :=
  match habitIndex with
  | JSNum.nan => (t, CompleteResult.invalidIndex)
  | JSNum.num idx =>
    if idx < 0 ∨ (t.habits.length : ℚ) ≤ idx then (t, CompleteResult.invalidIndex)
    else
      match jsArrayGet t.habits idx with
      | none => (t, CompleteResult.typeError)
      | some habit =>
        let r := habit.markComplete today
        let habits := t.habits.set idx.num.toNat r.1
        if r.2 then
          ({ habits := habits, stats := updateStats habits, saves := t.saves + 1 },
           CompleteResult.ok r.1 r.2)
        else
          ({ t with habits := habits }, CompleteResult.ok r.1 r.2)

/-- `deleteHabit` (lines 157–164): same guard, then `splice(idx, 1)`.
`splice` converts its start argument with `ToIntegerOrInfinity`, which
truncates toward zero; the guard has ensured `0 ≤ idx`, so truncation
is `⌊idx⌋`. -/
def HabitTracker.deleteHabit (t : HabitTracker) (habitIndex : JSNum) :
    HabitTracker × Bool :=
  match habitIndex with
  | JSNum.nan => (t, false)
  | JSNum.num idx =>
    if idx < 0 ∨ (t.habits.length : ℚ) ≤ idx then (t, false)
    else
      let habits := t.habits.eraseIdx (Int.floor idx).toNat
      ({ habits := habits, stats := updateStats habits, saves := t.saves + 1 }, true)

/-- One habit record as parsed from the persisted JSON file
(lines 297–303).  `targetFrequency`, when present, is given here as the
result of the constructor's `Number(·)` coercion of the stored value. -/
structure ParsedHabit where
  id : Option String
  name : String
  targetFrequency : Option JSNum
  completions : Option (List Int)
  createdAt : Option Int

/-- The per-habit restore step of `loadFromFile` (lines 297–303):
`new Habit(h.name, h.targetFrequency ?? 0)` followed by field
overwrites; the stored `completions` list is copied verbatim. -/
def restoreHabit (p : ParsedHabit) (freshId : String) (now : Int) : Habit :=
  let habit := Habit.make p.name (p.targetFrequency.getD (JSNum.num 0)) freshId now
  { habit with
    id := p.id.getD habit.id
    completions := p.completions.getD []
    createdAt := p.createdAt.getD habit.createdAt }

/-! ## Helper lemmas -/

lemma foldl_add_completions (l : List Habit) (n : ℕ) :
    l.foldl (fun acc h => acc + h.completions.length) n
      = n + (l.map fun h => h.completions.length).sum := by
  induction l generalizing n with
  | nil => simp
  | cons x xs ih => simp [ih]; omega

lemma updateStats_habitsCreated (l : List Habit) :
    (updateStats l).habitsCreated = l.length := rfl

lemma updateStats_totalCompletions (l : List Habit) :
    (updateStats l).totalCompletions = (l.map fun h => h.completions.length).sum := by
  simp [updateStats, foldl_add_completions]

lemma list_set_self {α : Type} (l : List α) (n : ℕ) (a : α)
    (h : l[n]? = some a) : l.set n a = l := by
  induction l generalizing n with
  | nil => rfl
  | cons x xs ih =>
    cases n with
    | zero => simp_all
    | succ m => simp_all

/-! ## Claims -/

/-- C1: for every reference instant `r`, `getThisWeekCompletions r` keeps
exactly the stored days whose value lies in `[startOfWeek r, endOfWeek r]`,
in the insertion order of `completions`; `startOfWeek r` is always a
Monday at 00:00:00.000 local time, and `endOfWeek r` is the following
Sunday at 23:59:59.999 (the last millisecond before the next Monday). -/
theorem getThisWeekCompletions_week_window (h : Habit) (r : Int) :
    (h.getThisWeekCompletions r).Sublist h.completions ∧
    (∀ c : Int, c ∈ h.getThisWeekCompletions r ↔
      c ∈ h.completions ∧ startOfWeek r ≤ dayMidnight c ∧ dayMidnight c ≤ endOfWeek r) ∧
    jsGetDay (startOfWeek r) = 1 ∧
    startOfWeek r % msPerDay = 0 ∧
    startOfWeek r ≤ r ∧ r ≤ endOfWeek r ∧
    endOfWeek r = startOfWeek r + 7 * msPerDay - 1 ∧
    jsGetDay (endOfWeek r) = 0 := by
  refine ⟨List.filter_sublist _, ?_, ?_, ?_, ?_, ?_, ?_, ?_⟩
  · intro c
    simp [Habit.getThisWeekCompletions, List.mem_filter, and_assoc]
  all_goals
    simp only [jsGetDay, startOfWeek, endOfWeek, epochDay, msPerDay]
    omega

/-- C2: two `markComplete` calls with instants of the same calendar day
mutate the habit at most once: the first call on an absent day appends
that day and returns `true` (on a present day it changes nothing and
returns `false`), and the second call never mutates and returns `false`. -/
theorem markComplete_same_day_idempotent (h : Habit) (d1 d2 : Int)
    (hsame : formatDate d1 = formatDate d2) :
    ((h.markComplete d1).1.markComplete d2).1 = (h.markComplete d1).1 ∧
    ((h.markComplete d1).1.markComplete d2).2 = false ∧
    (formatDate d1 ∉ h.completions →
      (h.markComplete d1).1.completions = h.completions ++ [formatDate d1] ∧
      (h.markComplete d1).2 = true) ∧
    (formatDate d1 ∈ h.completions →
      (h.markComplete d1).1 = h ∧ (h.markComplete d1).2 = false) := by
  by_cases hmem : formatDate d1 ∈ h.completions
  · simp [Habit.markComplete, hmem, ← hsame]
  · simp [Habit.markComplete, hmem, ← hsame]

/-- Witness for C2 at the concrete inputs `0` and `5` (both instants of
epoch day `0`): the second same-day call reports no mutation. -/
theorem markComplete_same_day_idempotent_witness :
    formatDate 0 = formatDate 5 ∧
    (((Habit.make "a" (JSNum.num 1) "i" 0).markComplete 0).1.markComplete 5).2 = false :=
  ⟨by decide,
   (markComplete_same_day_idempotent (Habit.make "a" (JSNum.num 1) "i" 0) 0 5 (by decide)).2.1⟩

/-- C3: `isCompletedThisWeek` is the JS comparison `count >= target`:
for a numeric target `q` it is true exactly when the this-week
completion count is at least `q`; in particular a target of `0` makes
it true regardless of the completions. -/
theorem isCompletedThisWeek_iff_count_ge (h : Habit) (r : Int) :
    (∀ q : ℚ, h.targetFrequency = JSNum.num q →
      (h.isCompletedThisWeek r = true ↔
        q ≤ ((h.getThisWeekCompletions r).length : ℚ))) ∧
    (h.targetFrequency = JSNum.num 0 → h.isCompletedThisWeek r = true) := by
  constructor
  · intro q hq
    simp [Habit.isCompletedThisWeek, hq, jsGeNum]
  · intro hq
    simp [Habit.isCompletedThisWeek, hq, jsGeNum]

/-- Witness for C3: a habit whose target is `0` counts as completed this
week with no completions at all. -/
theorem isCompletedThisWeek_iff_count_ge_witness :
    (Habit.make "w" (JSNum.num 0) "i" 0).targetFrequency = JSNum.num 0 ∧
    (Habit.make "w" (JSNum.num 0) "i" 0).isCompletedThisWeek 0 = true :=
  ⟨rfl, (isCompletedThisWeek_iff_count_ge (Habit.make "w" (JSNum.num 0) "i" 0) 0).2 rfl⟩

/-- C4: `getProgressPercentage` is `0` whenever the numeric target is
`≤ 0` — while `isCompletedThisWeek` is simultaneously true — and for a
positive target equals `min(100, 100·count/target)`; for a fixed target
it is monotone non-decreasing in the this-week count and lies in
`[0, 100]`. -/
theorem getProgressPercentage_spec (h1 h2 : Habit) (r1 r2 : Int) :
    (∀ q : ℚ, h1.targetFrequency = JSNum.num q → q ≤ 0 →
      h1.getProgressPercentage r1 = JSNum.num 0 ∧ h1.isCompletedThisWeek r1 = true) ∧
    (∀ q : ℚ, h1.targetFrequency = JSNum.num q → 0 < q →
      h1.getProgressPercentage r1 =
        JSNum.num (min 100 (100 * ((h1.getThisWeekCompletions r1).length : ℚ) / q))) ∧
    (∀ q : ℚ, h1.targetFrequency = JSNum.num q → h2.targetFrequency = JSNum.num q →
      (h1.getThisWeekCompletions r1).length ≤ (h2.getThisWeekCompletions r2).length →
      ∃ p1 p2 : ℚ, h1.getProgressPercentage r1 = JSNum.num p1 ∧
        h2.getProgressPercentage r2 = JSNum.num p2 ∧
        p1 ≤ p2 ∧ 0 ≤ p1 ∧ p2 ≤ 100) := by
  refine ⟨?_, ?_, ?_⟩
  · intro q hq hq0
    constructor
    · simp [Habit.getProgressPercentage, hq, hq0]
    · simp only [Habit.isCompletedThisWeek, hq, jsGeNum, decide_eq_true_eq]
      exact le_trans hq0 (Nat.cast_nonneg _)
  · intro q hq hq0
    simp only [Habit.getProgressPercentage, hq, if_neg (not_le.mpr hq0)]
    congr 1
    rw [min_comm]
    congr 1
    ring
  · intro q hq1 hq2 hcount
    by_cases hq0 : q ≤ 0
    · exact ⟨0, 0, by simp [Habit.getProgressPercentage, hq1, hq0],
        by simp [Habit.getProgressPercentage, hq2, hq0], le_rfl, le_rfl, by norm_num⟩
    · push_neg at hq0
      refine ⟨min (((h1.getThisWeekCompletions r1).length : ℚ) / q * 100) 100,
        min (((h2.getThisWeekCompletions r2).length : ℚ) / q * 100) 100,
        by simp [Habit.getProgressPercentage, hq1, not_le.mpr hq0],
        by simp [Habit.getProgressPercentage, hq2, not_le.mpr hq0], ?_, ?_, min_le_right _ _⟩
      · refine min_le_min ?_ le_rfl
        gcongr
      · refine le_min ?_ (by norm_num)
        positivity

/-- Witness for C4: at target `0` the percentage is `0` even though the
completion status is simultaneously true. -/
theorem getProgressPercentage_spec_witness :
    (Habit.make "w" (JSNum.num 0) "i" 0).targetFrequency = JSNum.num 0 ∧ (0 : ℚ) ≤ 0 ∧
    (Habit.make "w" (JSNum.num 0) "i" 0).getProgressPercentage 0 = JSNum.num 0 ∧
    (Habit.make "w" (JSNum.num 0) "i" 0).isCompletedThisWeek 0 = true :=
  ⟨rfl, le_rfl,
   (getProgressPercentage_spec (Habit.make "w" (JSNum.num 0) "i" 0)
     (Habit.make "w" (JSNum.num 0) "i" 0) 0 0).1 0 rfl le_rfl⟩

/-- A concrete habit used in concrete evaluations. -/
def sampleHabitA : Habit := Habit.make "A" (JSNum.num 1) "a" 0

/-- A second concrete habit. -/
def sampleHabitB : Habit := Habit.make "B" (JSNum.num 2) "b" 0

/-- A concrete two-habit tracker with a consistent stats cache. -/
def sampleTracker : HabitTracker :=
  { habits := [sampleHabitA, sampleHabitB]
    stats := updateStats [sampleHabitA, sampleHabitB]
    saves := 0 }

/-- C5 (exhibiting the divergence): on the two-habit tracker,
`completeHabit(1.5)` passes the index guard (`1.5` is not `NaN`, not
negative, and below the length), reads `habits[1.5] = undefined`, and
the `markComplete` call on `undefined` throws a TypeError instead of
returning the invalid-index outcome; `NaN`, `-1` and `999` do return
the invalid-index outcome without any mutation. -/
theorem completeHabit_fractional_index_throws :
    sampleTracker.completeHabit (JSNum.num (mkRat 3 2)) 0
      = (sampleTracker, CompleteResult.typeError) ∧
    sampleTracker.completeHabit JSNum.nan 0
      = (sampleTracker, CompleteResult.invalidIndex) ∧
    sampleTracker.completeHabit (JSNum.num (-1)) 0
      = (sampleTracker, CompleteResult.invalidIndex) ∧
    sampleTracker.completeHabit (JSNum.num 999) 0
      = (sampleTracker, CompleteResult.invalidIndex) :=
  ⟨by decide, by decide, by decide, by decide⟩

lemma jsArrayGet_some {l : List Habit} {q : ℚ} {h : Habit}
    (hj : jsArrayGet l q = some h) : l[q.num.toNat]? = some h := by
  unfold jsArrayGet at hj
  split at hj
  · exact hj
  · exact absurd hj (by simp)

lemma completeHabit_state (t : HabitTracker) (idx : JSNum) (today : Int) :
    (t.completeHabit idx today).1 = t ∨
    (t.completeHabit idx today).1.stats
      = updateStats (t.completeHabit idx today).1.habits := by
  unfold HabitTracker.completeHabit
  cases idx with
  | nan => left; rfl
  | num q =>
    by_cases hg : q < 0 ∨ (t.habits.length : ℚ) ≤ q
    · left; simp [hg]
    · simp only [if_neg hg]
      rcases hj : jsArrayGet t.habits q with _ | habit
      · left; simp
      · by_cases hmem : formatDate today ∈ habit.completions
        · left
          simp [Habit.markComplete, hmem, list_set_self _ _ _ (jsArrayGet_some hj)]
        · right
          simp [Habit.markComplete, hmem]

lemma deleteHabit_state (t : HabitTracker) (idx : JSNum) :
    (t.deleteHabit idx).1 = t ∨
    (t.deleteHabit idx).1.stats = updateStats (t.deleteHabit idx).1.habits := by
  unfold HabitTracker.deleteHabit
  cases idx with
  | nan => left; rfl
  | num q =>
    by_cases hg : q < 0 ∨ (t.habits.length : ℚ) ≤ q
    · left; simp [hg]
    · right; simp [hg]

/-- C6: immediately after `addHabit` (unconditionally), and after
`completeHabit` and `deleteHabit` whenever the cache matched the habit
list before the call (the paths that skip `updateStats` also leave the
list untouched), the profile's stats equal the recomputation:
`habitsCreated` is the habit count and `totalCompletions` is the sum of
the per-habit completion counts. -/
theorem stats_match_after_operations (t : HabitTracker)
    (name : String) (freq : JSNum) (fid : String) (now : Int)
    (idx : JSNum) (today : Int)
    (hpre : t.stats.habitsCreated = t.habits.length ∧
      t.stats.totalCompletions = (t.habits.map fun h => h.completions.length).sum) :
    ((t.addHabit name freq fid now).1.stats.habitsCreated
        = (t.addHabit name freq fid now).1.habits.length ∧
      (t.addHabit name freq fid now).1.stats.totalCompletions
        = ((t.addHabit name freq fid now).1.habits.map fun h => h.completions.length).sum) ∧
    ((t.completeHabit idx today).1.stats.habitsCreated
        = (t.completeHabit idx today).1.habits.length ∧
      (t.completeHabit idx today).1.stats.totalCompletions
        = ((t.completeHabit idx today).1.habits.map fun h => h.completions.length).sum) ∧
    ((t.deleteHabit idx).1.stats.habitsCreated
        = (t.deleteHabit idx).1.habits.length ∧
      (t.deleteHabit idx).1.stats.totalCompletions
        = ((t.deleteHabit idx).1.habits.map fun h => h.completions.length).sum) := by
  refine ⟨⟨updateStats_habitsCreated _, updateStats_totalCompletions _⟩, ?_, ?_⟩
  · rcases completeHabit_state t idx today with hs | hs
    · rw [hs]; exact hpre
    · rw [hs]; exact ⟨updateStats_habitsCreated _, updateStats_totalCompletions _⟩
  · rcases deleteHabit_state t idx with hs | hs
    · rw [hs]; exact hpre
    · rw [hs]; exact ⟨updateStats_habitsCreated _, updateStats_totalCompletions _⟩

/-- Witness for C6 on the concrete two-habit tracker: after completing
habit `0` the cache again counts two habits. -/
theorem stats_match_after_operations_witness :
    (sampleTracker.stats.habitsCreated = sampleTracker.habits.length ∧
      sampleTracker.stats.totalCompletions
        = (sampleTracker.habits.map fun h => h.completions.length).sum) ∧
    (sampleTracker.completeHabit (JSNum.num 0) 0).1.stats.habitsCreated
      = (sampleTracker.completeHabit (JSNum.num 0) 0).1.habits.length :=
  ⟨⟨by decide, by decide⟩,
   (stats_match_after_operations sampleTracker "n" (JSNum.num 1) "i" 0 (JSNum.num 0) 0
     ⟨by decide, by decide⟩).2.1.1⟩

/-- C7 counterexample: reloading a persisted habit record whose stored
completions list holds the same day twice produces a habit whose
`completions` contains that day twice — the restore step copies the
stored list verbatim and never deduplicates, so per-day uniqueness is
not an invariant across reload. -/
theorem restoreHabit_duplicate_counterexample :
    ¬ (restoreHabit
        { id := some "x", name := "n", targetFrequency := none,
          completions := some [0, 0], createdAt := none } "f" 9).completions.Nodup := by
  decide

/-- C7 (amended): per-day uniqueness is preserved by `markComplete`,
and the reload step yields exactly the stored list, so it preserves
uniqueness precisely when the persisted completions list itself has no
duplicate day (as any list previously written by `markComplete`-built
states does); reload itself performs no deduplication. -/
theorem completions_nodup_invariant (h : Habit) (d : Int) (p : ParsedHabit)
    (fid : String) (now : Int)
    (hh : h.completions.Nodup) (hp : (p.completions.getD []).Nodup) :
    (h.markComplete d).1.completions.Nodup ∧
    (restoreHabit p fid now).completions.Nodup ∧
    (restoreHabit p fid now).completions = p.completions.getD [] := by
  refine ⟨?_, by simpa [restoreHabit] using hp, by simp [restoreHabit]⟩
  by_cases hmem : formatDate d ∈ h.completions
  · simpa [Habit.markComplete, hmem] using hh
  · have happ : (h.markComplete d).1.completions = h.completions ++ [formatDate d] := by
      simp [Habit.markComplete, hmem]
    rw [happ]
    simp [List.nodup_append, hh, hmem]

/-- Witness for C7 (amended) at concrete inputs: marking day `0` on the
fresh sample habit keeps its completions duplicate-free. -/
theorem completions_nodup_invariant_witness :
    sampleHabitA.completions.Nodup ∧
    (((⟨none, "n", none, some [1, 2], none⟩ : ParsedHabit).completions.getD []).Nodup) ∧
    (sampleHabitA.markComplete 0).1.completions.Nodup :=
  ⟨by decide, by decide,
   (completions_nodup_invariant sampleHabitA 0 ⟨none, "n", none, some [1, 2], none⟩ "f" 9
     (by decide) (by decide)).1⟩

/-- C8: deleting at a valid index `i` of a tracker with at least `i + 2`
habits removes exactly the entry at position `i` and shifts the later
entries down one place, so position `i` afterwards holds the habit that
was at `i + 1`; an immediately following `completeHabit i` therefore
acts on that shifted habit, never on the deleted entry. -/
theorem deleteHabit_shift_then_completeHabit (t : HabitTracker) (i : ℕ) (today : Int)
    (hlen : i + 2 ≤ t.habits.length) :
    (t.deleteHabit (JSNum.num i)).2 = true ∧
    (t.deleteHabit (JSNum.num i)).1.habits = t.habits.take i ++ t.habits.drop (i + 1) ∧
    (t.deleteHabit (JSNum.num i)).1.habits.length = t.habits.length - 1 ∧
    (t.deleteHabit (JSNum.num i)).1.habits[i]? = t.habits[i + 1]? ∧
    (∃ hab : Habit, t.habits[i + 1]? = some hab ∧
      ((t.deleteHabit (JSNum.num i)).1.completeHabit (JSNum.num i) today).2
        = CompleteResult.ok (hab.markComplete today).1 (hab.markComplete today).2) := by
  have hilt : (i : ℚ) < (t.habits.length : ℚ) := by
    have : i < t.habits.length := by omega
    exact_mod_cast this
  have hguard : ¬ ((i : ℚ) < 0 ∨ (t.habits.length : ℚ) ≤ (i : ℚ)) := by
    push_neg
    exact ⟨Nat.cast_nonneg i, hilt⟩
  have hfloor : (Int.floor ((i : ℚ))).toNat = i := by
    rw [Int.floor_natCast]
    exact Int.toNat_natCast i
  have hdel : (t.deleteHabit (JSNum.num i)).1.habits = t.habits.eraseIdx i ∧
      (t.deleteHabit (JSNum.num i)).2 = true := by
    constructor <;> simp only [HabitTracker.deleteHabit, if_neg hguard, hfloor]
  have herase : t.habits.eraseIdx i = t.habits.take i ++ t.habits.drop (i + 1) :=
    List.eraseIdx_eq_take_drop_succ t.habits i
  have hlen' : (t.habits.eraseIdx i).length = t.habits.length - 1 := by
    rw [herase]
    simp
    omega
  have hgeti : (t.habits.eraseIdx i)[i]? = t.habits[i + 1]? := by
    rw [herase, List.getElem?_append_right (by simp), List.getElem?_drop]
    congr 1
    simp
    omega
  rcases hhab : t.habits[i + 1]? with _ | hab
  · exact absurd hhab (by simp [List.getElem?_eq_none_iff]; omega)
  refine ⟨hdel.2, by rw [hdel.1, herase], by rw [hdel.1, hlen'],
    by rw [hdel.1, hgeti, hhab], hab, rfl, ?_⟩
  have hget2 : (t.deleteHabit (JSNum.num i)).1.habits[i]? = some hab := by
    rw [hdel.1, hgeti, hhab]
  have hlen2 : (t.deleteHabit (JSNum.num i)).1.habits.length = t.habits.length - 1 := by
    rw [hdel.1, hlen']
  have hguard2 : ¬ ((i : ℚ) < 0 ∨ ((t.deleteHabit (JSNum.num i)).1.habits.length : ℚ) ≤ (i : ℚ)) := by
    push_neg
    refine ⟨Nat.cast_nonneg i, ?_⟩
    have : i < (t.deleteHabit (JSNum.num i)).1.habits.length := by
      rw [hlen2]; omega
    exact_mod_cast this
  have hja : jsArrayGet (t.deleteHabit (JSNum.num i)).1.habits ((i : ℚ)) = some hab := by
    unfold jsArrayGet
    rw [if_pos (by constructor <;> simp)]
    simpa using hget2
  simp only [HabitTracker.completeHabit, if_neg hguard2, hja]
  rcases hmc : (hab.markComplete today).2 with _ | _ <;> simp [hmc]

/-- Witness for C8 on the concrete two-habit tracker at index `0`:
the delete succeeds and position `0` afterwards holds the habit that
was at position `1`. -/
theorem deleteHabit_shift_then_completeHabit_witness :
    0 + 2 ≤ sampleTracker.habits.length ∧
    (sampleTracker.deleteHabit (JSNum.num 0)).2 = true ∧
    (sampleTracker.deleteHabit (JSNum.num 0)).1.habits[0]? = sampleTracker.habits[0 + 1]? :=
  ⟨by decide,
   (deleteHabit_shift_then_completeHabit sampleTracker 0 0 (by decide)).1,
   (deleteHabit_shift_then_completeHabit sampleTracker 0 5 (by decide)).2.2.2.1⟩

/-- C9 (exhibiting the divergence): constructing a habit from a
non-numeric target — whose `Number(·)` coercion is `NaN` — leaves
`targetFrequency = NaN` rather than `0`, because `Number(x) ?? 0` never
takes the fallback (`NaN` is not nullish).  The id, the empty
completions list and the creation timestamp are set as documented. -/
theorem habit_constructor_nan_target :
    (Habit.make "Yoga" JSNum.nan "id0" 7).targetFrequency = JSNum.nan ∧
    (Habit.make "Yoga" JSNum.nan "id0" 7).targetFrequency ≠ JSNum.num 0 ∧
    (Habit.make "Yoga" JSNum.nan "id0" 7).completions = [] ∧
    (Habit.make "Yoga" JSNum.nan "id0" 7).id = "id0" ∧
    (Habit.make "Yoga" JSNum.nan "id0" 7).createdAt = 7 :=
  ⟨rfl, by decide, rfl, rfl, rfl⟩

/-- C10 counterexample: `addHabit` called with an empty name and a
negative frequency does not fail — it appends the habit to the empty
tracker and returns it. -/
theorem addHabit_no_validation_counterexample :
    ((HabitTracker.mk [] (updateStats []) 0).addHabit "" (JSNum.num (-5)) "i" 0).1.habits.length
      = 1 ∧
    ((HabitTracker.mk [] (updateStats []) 0).addHabit "" (JSNum.num (-5)) "i" 0).2.name = "" :=
  ⟨rfl, rfl⟩

/-- C10 (amended): for every name and frequency input — valid or not —
`addHabit` appends exactly one freshly constructed habit, recomputes the
stats cache over the new list, persists once, and returns the new habit;
no validation happens inside the operation (the reference code validates
only at the CLI boundary, before calling it). -/
theorem addHabit_appends_and_recomputes (t : HabitTracker)
    (name : String) (freq : JSNum) (fid : String) (now : Int) :
    (t.addHabit name freq fid now).1.habits
        = t.habits ++ [Habit.make name freq fid now] ∧
    (t.addHabit name freq fid now).2 = Habit.make name freq fid now ∧
    (t.addHabit name freq fid now).1.habits.length = t.habits.length + 1 ∧
    (t.addHabit name freq fid now).1.stats.habitsCreated
        = (t.addHabit name freq fid now).1.habits.length ∧
    (t.addHabit name freq fid now).1.stats.totalCompletions
        = ((t.addHabit name freq fid now).1.habits.map fun h => h.completions.length).sum ∧
    (t.addHabit name freq fid now).1.saves = t.saves + 1 :=
  ⟨rfl, rfl, by simp [HabitTracker.addHabit],
   updateStats_habitsCreated _, updateStats_totalCompletions _, rfl⟩
